import Mathlib

/-!
# Verification of the pfr-dl table-extraction core

Shallow embedding of the semi-structured table extraction and schema
unification engine of `src/main.rs` (a scraper for sports box-score pages),
together with proofs settling the specification claims about it.

The embedding translates the pure, decidable core of the program:

* `strTrim`, `strLtB` — models of Rust `str::trim` and of the `Ord` instance
  that sorts the keys of a `BTreeMap<&str, &str>` (byte-lexicographic order;
  the model compares Unicode scalar values, which agrees on the ASCII data
  these documents carry);
* `btreeInsert` / `btreeGet` — the `BTreeMap` as a strictly key-sorted
  association list;
* `HNode` — the parsed HTML tree as seen through the `scraper` crate;
* `processCells`, `parseTableRow`, `parse_player_stats_table` — the row and
  table walk of `parse_player_stats_table` (main.rs lines 114-180), where the
  outer `Option` models the panic of the `unwrap` on line 122;
* `parse_game_log` — the per-document driver (lines 182-208);
* `replaceChars` / `uncommentTables` — the comment-marker rewrite of line 281;
* `schemaFor`, `renderRow`, `categoryOutput`, `processWeekCategory` — the
  schema discovery (lines 298-302) and CSV rendering (lines 308-343) of
  `process_week`, one category at a time.

Network fetching, URL discovery, file placement and byte decoding are outside
the embedded core, as the specification treats them as external collaborators.
-/

/-- ASCII whitespace, modelling `char::is_whitespace` on the characters that
occur in these documents. -/
def isWsChar (c : Char) : Bool :=
  c == ' ' || c == '\t' || c == '\n' || c == '\r'

/-- Model of Rust `str::trim`: drop leading and trailing whitespace. -/
def strTrim (s : String) : String :=
  String.mk (((s.data.dropWhile isWsChar).reverse.dropWhile isWsChar).reverse)

/-- Strict order on characters by scalar value. -/
def charLtB (a b : Char) : Bool :=
  Nat.blt a.toNat b.toNat

/-- Lexicographic strict order on character lists: the order by which
`BTreeMap<&str, _>` keys are sorted in the source. -/
def charListLtB : List Char → List Char → Bool
  | [], [] => false
  | [], _ :: _ => true
  | _ :: _, [] => false
  | a :: as, b :: bs => charLtB a b || (a == b && charListLtB as bs)

/-- Lexicographic strict order on strings. -/
def strLtB (a b : String) : Bool :=
  charListLtB a.data b.data

/-- `BTreeMap<&str, &str>::insert`, on a strictly key-sorted association
list: overwrite an existing key in place, otherwise insert in order. -/
def btreeInsert (k v : String) : List (String × String) → List (String × String)
  | [] => [(k, v)]
  | (k2, v2) :: rest =>
    if strLtB k k2 then (k, v) :: (k2, v2) :: rest
    else if k = k2 then (k, v) :: rest
    else (k2, v2) :: btreeInsert k v rest

/-- `BTreeMap::get`: first entry with the given key. -/
def btreeGet (k : String) : List (String × String) → Option String
  | [] => none
  | (k2, v2) :: rest => if k = k2 then some v2 else btreeGet k rest

/-- A node of the parsed document tree, as the `scraper` crate presents it:
an element with tag, attributes and children, a text node, or any other
node kind (comments and the like). -/
inductive HNode where
  | element (tag : String) (attrs : List (String × String)) (children : List HNode)
  | text (s : String)
  | comment

/-- First attribute with the given name. -/
def attrGet (attrs : List (String × String)) (name : String) : Option String :=
  match attrs with
  | [] => none
  | (k, v) :: rest => if k = name then some v else attrGet rest name

/-- The children of a node (non-elements have none). -/
def nodeChildren : HNode → List HNode
  | .element _ _ cs => cs
  | _ => []

/-- `NodeRef::first_child`. -/
def firstChild (n : HNode) : Option HNode :=
  (nodeChildren n).head?

mutual

/-- First element, in pre-order with the node itself included, whose tag and
attributes satisfy the predicate: models `select(..).next()` on a document
for a simple selector. -/
def findElem (p : String → List (String × String) → Bool) : HNode → Option HNode
  | .element tag attrs cs =>
    if p tag attrs then some (.element tag attrs cs) else findElemIn p cs
  | _ => none

/-- First matching element in a forest, pre-order: models `select(..).next()`
on an element (which skips the element itself and walks its descendants). -/
def findElemIn (p : String → List (String × String) → Bool) : List HNode → Option HNode
  | [] => none
  | n :: rest =>
    match findElem p n with
    | some e => some e
    | none => findElemIn p rest

end

/-- The fixed closed set of table categories (main.rs lines 28-38). -/
inductive StatsType where
  | Offense
  | Defense
  | Returns
  | Kicking
  | AdvPassing
  | AdvRushing
  | AdvReceiving
  | AdvDefense
deriving DecidableEq, Repr

/-- One accepted row: identity fields plus the category-tagged stat map
(main.rs `PlayerGameStats` with its `TypedStats` inlined). -/
structure PlayerGameStats where
  player_id : String
  player_name : String
  stats_type : StatsType
  stats : List (String × String)
deriving DecidableEq, Repr

/-- All accepted rows of one document (main.rs `GameStats`). -/
structure GameStats where
  game_id : String
  player_stats : List PlayerGameStats
deriving DecidableEq, Repr

/-- A document's rows with its period coordinates (main.rs `GameInfo`). -/
structure GameInfo where
  year : Nat
  week_num : Nat
  stats : GameStats
deriving DecidableEq, Repr

/-- The node the code inspects for a cell's value (main.rs lines 151-160):
two levels below the cell for the name-bearing field, one level otherwise. -/
def statValueNode (cell : HNode) (stat_name : String) : Option HNode :=
  if stat_name = "player" then (firstChild cell).bind firstChild
  else firstChild cell

/-- The identifier handling of a cell (main.rs lines 137-139): a cell carrying
the `data-append-csv` attribute contributes the fixed `player_id` field. -/
def csvUpdate (attrs : List (String × String)) (acc : List (String × String)) :
    List (String × String) :=
  match attrGet attrs "data-append-csv" with
  | some id => btreeInsert "player_id" id acc
  | none => acc

/-- Handling of one structural cell (main.rs lines 135-164): the identifier
attribute, the field-name attribute, then the value extraction. `none` models
`continue 'rowlabel`: a structural cell without a `data-stat` attribute
abandons the whole row (the map the identifier insert of line 138 touched is
then discarded with the row, so applying `csvUpdate` inside the kept branches
is equivalent to the source order). -/
def cellUpdate (tag : String) (attrs : List (String × String)) (kids : List HNode)
    (acc : List (String × String)) : Option (List (String × String)) :=
  match attrGet attrs "data-stat" with
  | none => none
  | some stat_name =>
    match statValueNode (.element tag attrs kids) stat_name with
    | some (.text t) => some (btreeInsert (strTrim stat_name) (strTrim t) (csvUpdate attrs acc))
    | _ => some (csvUpdate attrs acc)

/-- The walk over one row's children (main.rs lines 127-165), accumulating the
`player_data` map; non-element children are skipped. -/
def processCells : List HNode → List (String × String) → Option (List (String × String))
  | [], acc => some acc
  | cell :: rest, acc =>
    match cell with
    | .element tag attrs kids =>
      match cellUpdate tag attrs kids acc with
      | none => none
      | some acc2 => processCells rest acc2
    | _ => processCells rest acc

/-- One table row to at most one record (main.rs lines 125-177): the row is
kept only when both the identifier field and the name field are present. -/
def parseTableRow (stats_type : StatsType) (row : HNode) : Option PlayerGameStats :=
  match processCells (nodeChildren row) [] with
  | none => none
  | some player_data =>
    match btreeGet "player_id" player_data, btreeGet "player" player_data with
    | some pid, some pname =>
      some { player_id := pid, player_name := pname
             stats_type := stats_type, stats := player_data }
    | _, _ => none

/-- The anchor lookup of main.rs lines 115-119: the first element of the
document whose `id` attribute equals the anchor. -/
def locateAnchor (html_doc : HNode) (anchor_id : String) : Option HNode :=
  findElem (fun _ attrs => attrGet attrs "id" == some anchor_id) html_doc

/-- The table-body lookup of main.rs lines 121-122: the first `tbody`
descendant of the anchored element. -/
def locateTbody (table_elt : HNode) : Option HNode :=
  findElemIn (fun tag _ => tag == "tbody") (nodeChildren table_elt)

/-- `parse_player_stats_table` (main.rs lines 114-180). The outer `Option`
models the panic of the `unwrap` on line 122: `none` is a panic, reached
exactly when the anchor matches an element with no `tbody` descendant.
A missing anchor is the `Err` outcome of line 118. -/
def parse_player_stats_table (html_doc : HNode) (anchor_id : String)
    (stats_type : StatsType) : Option (Except String (List PlayerGameStats)) :=
  match locateAnchor html_doc anchor_id with
  | none => some (Except.error ("no table element for selector #" ++ anchor_id ++ " found"))
  | some table_elt =>
    match locateTbody table_elt with
    | none => none
    | some table_body =>
      some (Except.ok ((nodeChildren table_body).filterMap (parseTableRow stats_type)))

/-- The record list of an `Ok` outcome, nothing for an `Err` outcome
(the `if let Ok(stats)` of main.rs lines 201-205). -/
def okOrEmpty (r : Except String (List PlayerGameStats)) : List PlayerGameStats :=
  match r with
  | .ok l => l
  | .error _ => []

/-- `parse_game_log` (main.rs lines 182-208): the four mandatory sections are
sequenced with `?`, the four advanced sections are tolerated when they fail.
The document identifier extraction from the canonical link (lines 185-187) is
outside the embedded fragment and supplied as the `game_id` argument. -/
def parse_game_log (doc : HNode) (game_id : String) : Option (Except String GameStats) :=
  match parse_player_stats_table doc "player_offense" StatsType.Offense with
  | none => none
  | some (.error e) => some (.error e)
  | some (.ok offense) =>
  match parse_player_stats_table doc "player_defense" StatsType.Defense with
  | none => none
  | some (.error e) => some (.error e)
  | some (.ok defense) =>
  match parse_player_stats_table doc "returns" StatsType.Returns with
  | none => none
  | some (.error e) => some (.error e)
  | some (.ok returns) =>
  match parse_player_stats_table doc "kicking" StatsType.Kicking with
  | none => none
  | some (.error e) => some (.error e)
  | some (.ok kicking) =>
  match parse_player_stats_table doc "passing_advanced" StatsType.AdvPassing with
  | none => none
  | some adv_passing =>
  match parse_player_stats_table doc "rushing_advanced" StatsType.AdvRushing with
  | none => none
  | some adv_rushing =>
  match parse_player_stats_table doc "receiving_advanced" StatsType.AdvReceiving with
  | none => none
  | some adv_receiving =>
  match parse_player_stats_table doc "defense_advanced" StatsType.AdvDefense with
  | none => none
  | some adv_def =>
  some (Except.ok
    { game_id := game_id
      player_stats := offense ++ defense ++ returns ++ kicking ++
        okOrEmpty adv_passing ++ okOrEmpty adv_rushing ++
        okOrEmpty adv_receiving ++ okOrEmpty adv_def })

/-- Does `pat` match at the head of the list? -/
def leadMatch : List Char → List Char → Bool
  | [], _ => true
  | _ :: _, [] => false
  | p :: ps, c :: cs => p == c && leadMatch ps cs

/-- The scan of `str::replace`, structured on a fuel argument so that one
unit of fuel is spent per character position; `replaceChars` supplies enough
fuel for the whole input. -/
def replaceCharsFuel (pat rep : List Char) : Nat → List Char → List Char
  | 0, l => l
  | _, [] => []
  | fuel + 1, c :: rest =>
    if leadMatch pat (c :: rest) then
      rep ++ replaceCharsFuel pat rep fuel (rest.drop (pat.length - 1))
    else
      c :: replaceCharsFuel pat rep fuel rest

/-- Model of Rust `str::replace`: rewrite every non-overlapping occurrence of
`pat`, scanning left to right. -/
def replaceChars (pat rep : List Char) (l : List Char) : List Char :=
  replaceCharsFuel pat rep l.length l

/-- Does the list contain an occurrence of `pat`? -/
def containsSeq (pat : List Char) : List Char → Bool
  | [] => leadMatch pat []
  | c :: rest => leadMatch pat (c :: rest) || containsSeq pat rest

/-- `str::replace` lifted to strings. -/
def strReplace (s pat rep : String) : String :=
  String.mk (replaceChars pat.data rep.data s.data)

/-- The markup-normalization rewrite of main.rs line 281: strip the two
comment-delimiter marker sequences that hide stats tables. -/
def uncommentTables (s : String) : String :=
  strReplace (strReplace s "\n<!--" "") "\n-->" ""

/-- The stream of typed records folded into the aggregator, in document
order (main.rs lines 294-296). -/
def allTypedStats (gis : List GameInfo) : List PlayerGameStats :=
  (gis.map (fun gi => gi.stats.player_stats)).flatten

/-- Schema discovery (main.rs lines 298-302): the first record of the
category fixes the columns as the key list of its `BTreeMap`; the
`or_insert_with` of the `HashMap` entry never overwrites. -/
def schemaFor (st : StatsType) : List PlayerGameStats → Option (List String)
  | [] => none
  | r :: rest =>
    if r.stats_type = st then some (r.stats.map Prod.fst) else schemaFor st rest

/-- The first accepted record of a category in the stream. -/
def firstOfType (st : StatsType) : List PlayerGameStats → Option PlayerGameStats
  | [] => none
  | r :: rest => if r.stats_type = st then some r else firstOfType st rest

/-- One value per schema column (main.rs lines 332-339): the record's value
for the column, or the empty string when the record lacks it. -/
def renderVals (cols : List String) (stats : List (String × String)) : List String :=
  cols.map (fun c => (btreeGet c stats).getD "")

/-- One data row (main.rs lines 327-341): the three coordinate columns
followed by the schema-aligned values. -/
def renderRow (gi : GameInfo) (cols : List String) (stats : List (String × String)) :
    List String :=
  toString gi.year :: toString gi.week_num :: gi.stats.game_id :: renderVals cols stats

/-- The rows written for one category across a batch, header first
(main.rs lines 308-343). `none` when the category has no records and hence
no file. -/
def categoryOutput (st : StatsType) (gis : List GameInfo) : Option (List (List String)) :=
  match schemaFor st (allTypedStats gis) with
  | none => none
  | some cols =>
    some ((["year", "week", "game_id"] ++ cols) ::
      (gis.map (fun gi =>
        gi.stats.player_stats.filterMap (fun ps =>
          if ps.stats_type = st then some (renderRow gi cols ps.stats) else none))).flatten)

/-- The per-document parse of a batch (main.rs lines 285-292): any document
whose `parse_game_log` is not `Ok` panics the whole batch (`none`). -/
def parseGames : List (String × HNode) → Option (List GameStats)
  | [] => some []
  | (gid, doc) :: rest =>
    match parse_game_log doc gid with
    | some (.ok gs) => (parseGames rest).map (fun l => gs :: l)
    | _ => none

/-- `process_week` restricted to one category: parse every document of the
batch, then aggregate and render. `none` when the batch aborted or the
category never received a record. -/
def processWeekCategory (year week_num : Nat) (games : List (String × HNode))
    (st : StatsType) : Option (List (List String)) :=
  match parseGames games with
  | none => none
  | some gss =>
    categoryOutput st (gss.map (fun gs => { year := year, week_num := week_num, stats := gs }))

/-- Spec-side map for the C1 comparison: insertion keeps the position of the
first appearance of a key, so the key list is in field-discovery order. -/
def assocPut (k v : String) : List (String × String) → List (String × String)
  | [] => [(k, v)]
  | (k2, v2) :: rest => if k = k2 then (k, v) :: rest else (k2, v2) :: assocPut k v rest

/-- Modelled from the spec: the row walk of `processCells` with the record
kept in field-discovery order, used only to express the specification's
reading of the schema (its words "in the order those fields first appear
within that record"). -/
def specCsvUpdate (attrs : List (String × String)) (acc : List (String × String)) :
    List (String × String) :=
  match attrGet attrs "data-append-csv" with
  | some id => assocPut "player_id" id acc
  | none => acc

/-- Modelled from the spec: one cell of the discovery-order row walk. -/
def specCellUpdate (tag : String) (attrs : List (String × String)) (kids : List HNode)
    (acc : List (String × String)) : Option (List (String × String)) :=
  match attrGet attrs "data-stat" with
  | none => none
  | some stat_name =>
    match statValueNode (.element tag attrs kids) stat_name with
    | some (.text t) => some (assocPut (strTrim stat_name) (strTrim t) (specCsvUpdate attrs acc))
    | _ => some (specCsvUpdate attrs acc)

/-- Modelled from the spec: the row walk with the record kept in
field-discovery order. -/
def specProcessCells : List HNode → List (String × String) → Option (List (String × String))
  | [], acc => some acc
  | cell :: rest, acc =>
    match cell with
    | .element tag attrs kids =>
      match specCellUpdate tag attrs kids acc with
      | none => none
      | some acc2 => specProcessCells rest acc2
    | _ => specProcessCells rest acc

/-- Modelled from the spec: the discovery-order field record of a row. -/
def specRecordOfRow (row : HNode) : Option (List (String × String)) :=
  specProcessCells (nodeChildren row) []

/-- Modelled from the spec: the schema the specification describes — the
record's field names excluding the identifier and name fields, in
field-discovery order. -/
def specSchemaOfRecord (pd : List (String × String)) : List String :=
  (pd.map Prod.fst).filter (fun k => k != "player_id" && k != "player")

/-- A player-identity cell: the identifier attribute plus the name field,
with the name text nested inside a link, two levels below the cell. -/
def nameCell (id name : String) : HNode :=
  HNode.element "th" [("data-append-csv", id), ("data-stat", "player")]
    [HNode.element "a" [("href", "/players/x.htm")] [HNode.text name]]

/-- A plain stat cell: the value text one level below the cell. -/
def statCell (stat v : String) : HNode :=
  HNode.element "td" [("data-stat", stat)] [HNode.text v]

/-- A sample data row with identifier, name and two numeric fields. -/
def sampleRow : HNode :=
  HNode.element "tr" [] [nameCell "AliA00" "Alice", statCell "yards" "57", statCell "attempts" "3"]

/-- The record the code extracts from `sampleRow` (keys in the map's sorted
order). -/
def sampleRec : PlayerGameStats :=
  { player_id := "AliA00", player_name := "Alice", stats_type := StatsType.Offense
    stats := [("attempts", "3"), ("player", "Alice"), ("player_id", "AliA00"), ("yards", "57")] }

/-- A header/separator row: its cell has no field-name attribute. -/
def separatorRow : HNode :=
  HNode.element "tr" [] [HNode.element "th" [] [HNode.text "Player"]]

/-- A table with the given anchor id and body rows. -/
def mkTable (id : String) (rows : List HNode) : HNode :=
  HNode.element "table" [("id", id)] [HNode.element "tbody" [] rows]

/-- A document whose offense anchor matches an element with no table body. -/
def noTbodyDoc : HNode :=
  HNode.element "html" [] [HNode.element "table" [("id", "player_offense")] []]

/-- A document with all four mandatory sections (offense holding one data
row) and no optional advanced sections. -/
def fullDoc : HNode :=
  HNode.element "html" []
    [mkTable "player_offense" [sampleRow], mkTable "player_defense" [],
     mkTable "returns" [], mkTable "kicking" []]

/-- A document missing the mandatory offense section. -/
def noOffenseDoc : HNode :=
  HNode.element "html" []
    [mkTable "player_defense" [], mkTable "returns" [], mkTable "kicking" []]

/-- A schema-defining record with fields x and y. -/
def recX1 : PlayerGameStats :=
  { player_id := "px", player_name := "nx", stats_type := StatsType.Offense
    stats := [("x", "1"), ("y", "2")] }

/-- A later record with field x and an extra field z outside the schema. -/
def recX2 : PlayerGameStats :=
  { player_id := "py", player_name := "ny", stats_type := StatsType.Offense
    stats := [("x", "3"), ("z", "9")] }

/-- A one-document batch carrying `recX1` and `recX2`. -/
def giXY : GameInfo :=
  { year := 2021, week_num := 1, stats := { game_id := "g1", player_stats := [recX1, recX2] } }

/-- Every key of the map is strictly above `a`. -/
def keyLowerB (a : String) : List (String × String) → Bool
  | [] => true
  | p :: rest => strLtB a p.1 && keyLowerB a rest

/-- The map's keys are strictly increasing. -/
def keysSortedB : List (String × String) → Bool
  | [] => true
  | p :: rest => keyLowerB p.1 rest && keysSortedB rest

theorem strDataInj {a b : String} (h : a.data = b.data) : a = b := by
  cases a
  cases b
  exact congrArg String.mk h

theorem charLtB_iff (a b : Char) : charLtB a b = true ↔ a.toNat < b.toNat := by
  unfold charLtB
  exact ⟨fun h => Nat.blt_eq.mp h, fun h => Nat.blt_eq.mpr h⟩

theorem charToNatInj {a b : Char} (h : a.toNat = b.toNat) : a = b :=
  Char.eq_of_val_eq (UInt32.toNat.inj h)

theorem charLtB_irrefl (a : Char) : charLtB a a = false := by
  cases h : charLtB a a
  · rfl
  · exact absurd (charLtB_iff a a |>.mp h) (Nat.lt_irrefl _)

theorem charListLtB_irrefl (l : List Char) : charListLtB l l = false := by
  induction l with
  | nil => rfl
  | cons a as ih => simp [charListLtB, charLtB_irrefl, ih]

theorem charListLtB_trans : ∀ {a b c : List Char}, charListLtB a b = true →
    charListLtB b c = true → charListLtB a c = true := by
  intro a
  induction a with
  | nil =>
    intro b c hab hbc
    cases b <;> cases c <;> simp_all [charListLtB]
  | cons a as ih =>
    intro b c hab hbc
    cases b with
    | nil => simp [charListLtB] at hab
    | cons b bs =>
      cases c with
      | nil => simp [charListLtB] at hbc
      | cons c cs =>
        simp only [charListLtB, Bool.or_eq_true, Bool.and_eq_true] at hab hbc ⊢
        rcases hab with h1 | ⟨heq1, h2⟩
        · rcases hbc with g1 | ⟨geq1, g2⟩
          · exact Or.inl ((charLtB_iff a c).mpr
              (Nat.lt_trans ((charLtB_iff a b).mp h1) ((charLtB_iff b c).mp g1)))
          · rw [beq_iff_eq] at geq1
            subst geq1
            exact Or.inl h1
        · rw [beq_iff_eq] at heq1
          subst heq1
          rcases hbc with g1 | ⟨geq1, g2⟩
          · exact Or.inl g1
          · rw [beq_iff_eq] at geq1
            subst geq1
            exact Or.inr ⟨by simp, ih h2 g2⟩

theorem charListLtB_total : ∀ (a b : List Char),
    charListLtB a b = true ∨ a = b ∨ charListLtB b a = true := by
  intro a
  induction a with
  | nil =>
    intro b
    cases b with
    | nil => exact Or.inr (Or.inl rfl)
    | cons b bs => exact Or.inl rfl
  | cons a as ih =>
    intro b
    cases b with
    | nil => exact Or.inr (Or.inr rfl)
    | cons b bs =>
      rcases Nat.lt_trichotomy a.toNat b.toNat with hlt | heq | hgt
      · refine Or.inl ?_
        simp only [charListLtB, Bool.or_eq_true]
        exact Or.inl ((charLtB_iff a b).mpr hlt)
      · have hab : a = b := charToNatInj heq
        subst hab
        rcases ih bs with h | h | h
        · refine Or.inl ?_
          simp [charListLtB, h]
        · subst h
          exact Or.inr (Or.inl rfl)
        · refine Or.inr (Or.inr ?_)
          simp [charListLtB, h]
      · refine Or.inr (Or.inr ?_)
        simp only [charListLtB, Bool.or_eq_true]
        exact Or.inl ((charLtB_iff b a).mpr hgt)

theorem strLtB_irrefl (a : String) : strLtB a a = false :=
  charListLtB_irrefl a.data

theorem strLtB_trans {a b c : String} (hab : strLtB a b = true)
    (hbc : strLtB b c = true) : strLtB a c = true :=
  charListLtB_trans hab hbc

theorem strLtB_total (a b : String) :
    strLtB a b = true ∨ a = b ∨ strLtB b a = true := by
  rcases charListLtB_total a.data b.data with h | h | h
  · exact Or.inl h
  · exact Or.inr (Or.inl (strDataInj h))
  · exact Or.inr (Or.inr h)

theorem strLtB_of_not (a b : String) (h1 : strLtB a b = false) (h2 : a ≠ b) :
    strLtB b a = true := by
  rcases strLtB_total a b with h | h | h
  · rw [h1] at h
    exact absurd h (by simp)
  · exact absurd h h2
  · exact h

theorem strLtB_ne {a b : String} (h : strLtB a b = true) : a ≠ b := by
  intro he
  subst he
  rw [strLtB_irrefl] at h
  exact absurd h (by simp)

theorem keyLowerB_trans {a b : String} {m : List (String × String)}
    (hab : strLtB a b = true) (h : keyLowerB b m = true) : keyLowerB a m = true := by
  induction m with
  | nil => rfl
  | cons p rest ih =>
    simp only [keyLowerB, Bool.and_eq_true] at h ⊢
    exact ⟨strLtB_trans hab h.1, ih h.2⟩

theorem keyLowerB_insert {a k : String} (v : String) {m : List (String × String)}
    (hm : keyLowerB a m = true) (hk : strLtB a k = true) :
    keyLowerB a (btreeInsert k v m) = true := by
  induction m with
  | nil => simp [btreeInsert, keyLowerB, hk]
  | cons p rest ih =>
    obtain ⟨p1, p2⟩ := p
    simp only [keyLowerB, Bool.and_eq_true] at hm
    by_cases h1 : strLtB k p1 = true
    · simp [btreeInsert, h1, keyLowerB, hk, hm.1, hm.2]
    · by_cases h2 : k = p1
      · simp [btreeInsert, h1, h2, keyLowerB, hm.1, hm.2, strLtB_irrefl]
      · simp [btreeInsert, h1, h2, keyLowerB, hm.1, ih hm.2]

theorem keysSortedB_insert {m : List (String × String)} (k v : String)
    (h : keysSortedB m = true) : keysSortedB (btreeInsert k v m) = true := by
  induction m with
  | nil => simp [btreeInsert, keysSortedB, keyLowerB]
  | cons p rest ih =>
    obtain ⟨p1, p2⟩ := p
    simp only [keysSortedB, Bool.and_eq_true] at h
    by_cases h1 : strLtB k p1 = true
    · have hlow : keyLowerB k rest = true := keyLowerB_trans h1 h.1
      simp [keysSortedB, btreeInsert, h1, keyLowerB, h.1, h.2, hlow]
    · by_cases h2 : k = p1
      · subst h2
        simp [btreeInsert, h1, keysSortedB, h.1, h.2]
      · have hfalse : strLtB k p1 = false := by
          cases hb : strLtB k p1
          · rfl
          · exact absurd hb h1
        have hgt : strLtB p1 k = true := strLtB_of_not k p1 hfalse h2
        simp [btreeInsert, h1, h2, keysSortedB, ih h.2, keyLowerB_insert v h.1 hgt]

theorem btreeGet_insert_self (k v : String) (m : List (String × String)) :
    btreeGet k (btreeInsert k v m) = some v := by
  induction m with
  | nil => simp [btreeInsert, btreeGet]
  | cons p rest ih =>
    obtain ⟨p1, p2⟩ := p
    by_cases h1 : strLtB k p1 = true
    · simp [btreeInsert, h1, btreeGet]
    · by_cases h2 : k = p1
      · simp [btreeInsert, h1, h2, btreeGet, strLtB_irrefl]
      · simp [btreeInsert, h1, h2, btreeGet, ih]

theorem btreeGet_insert_other {k c : String} (v : String) (m : List (String × String))
    (hne : c ≠ k) : btreeGet c (btreeInsert k v m) = btreeGet c m := by
  induction m with
  | nil => simp [btreeInsert, btreeGet, hne]
  | cons p rest ih =>
    obtain ⟨p1, p2⟩ := p
    by_cases h1 : strLtB k p1 = true
    · simp [btreeInsert, h1, btreeGet, hne]
    · by_cases h2 : k = p1
      · subst h2
        simp [btreeInsert, h1, btreeGet, hne]
      · simp [btreeInsert, h1, h2, btreeGet, ih]

theorem keyLowerB_not_mem {a : String} {m : List (String × String)}
    (h : keyLowerB a m = true) : a ∉ m.map Prod.fst := by
  induction m with
  | nil => simp
  | cons p rest ih =>
    simp only [keyLowerB, Bool.and_eq_true] at h
    simp only [List.map_cons, List.mem_cons, not_or]
    exact ⟨strLtB_ne h.1, ih h.2⟩

theorem keysSortedB_nodup {m : List (String × String)}
    (h : keysSortedB m = true) : (m.map Prod.fst).Nodup := by
  induction m with
  | nil => simp
  | cons p rest ih =>
    simp only [keysSortedB, Bool.and_eq_true] at h
    simp only [List.map_cons, List.nodup_cons]
    exact ⟨keyLowerB_not_mem h.1, ih h.2⟩

theorem btreeGet_mem {k v : String} {m : List (String × String)}
    (h : btreeGet k m = some v) : k ∈ m.map Prod.fst := by
  induction m with
  | nil => simp [btreeGet] at h
  | cons p rest ih =>
    obtain ⟨p1, p2⟩ := p
    by_cases h1 : k = p1
    · simp [h1]
    · simp only [btreeGet, if_neg h1] at h
      simp [ih h]

theorem csvUpdate_sorted {attrs acc} (hacc : keysSortedB acc = true) :
    keysSortedB (csvUpdate attrs acc) = true := by
  unfold csvUpdate
  cases attrGet attrs "data-append-csv"
  · exact hacc
  · exact keysSortedB_insert _ _ hacc

theorem cellUpdate_sorted {tag : String} {attrs : List (String × String)}
    {kids : List HNode} {acc acc2 : List (String × String)}
    (hacc : keysSortedB acc = true) (h : cellUpdate tag attrs kids acc = some acc2) :
    keysSortedB acc2 = true := by
  unfold cellUpdate at h
  split at h
  · cases h
  · split at h
    · cases h
      exact keysSortedB_insert _ _ (csvUpdate_sorted hacc)
    · cases h
      exact csvUpdate_sorted hacc

theorem processCells_sorted : ∀ (cells : List HNode) {acc pd : List (String × String)},
    keysSortedB acc = true → processCells cells acc = some pd →
    keysSortedB pd = true := by
  intro cells
  induction cells with
  | nil =>
    intro acc pd h hp
    simp only [processCells, Option.some.injEq] at hp
    exact hp ▸ h
  | cons cell rest ih =>
    intro acc pd h hp
    cases cell with
    | element tag attrs kids =>
      simp only [processCells] at hp
      cases hc : cellUpdate tag attrs kids acc with
      | none =>
        rw [hc] at hp
        cases hp
      | some acc2 =>
        rw [hc] at hp
        exact ih (cellUpdate_sorted h hc) hp
    | text s =>
      exact ih h (by simpa [processCells] using hp)
    | comment =>
      exact ih h (by simpa [processCells] using hp)

theorem parseTableRow_inv {st : StatsType} {row : HNode} {rec : PlayerGameStats}
    (h : parseTableRow st row = some rec) :
    keysSortedB rec.stats = true ∧ rec.stats_type = st ∧
    btreeGet "player_id" rec.stats = some rec.player_id ∧
    btreeGet "player" rec.stats = some rec.player_name ∧
    processCells (nodeChildren row) [] = some rec.stats := by
  unfold parseTableRow at h
  split at h
  · cases h
  · rename_i pd hp
    split at h
    · rename_i pid pname hid hname
      cases h
      exact ⟨processCells_sorted _ (by rfl) hp, rfl, hid, hname, hp⟩
    · cases h

theorem parse_table_types {doc : HNode} {a : String} {t : StatsType}
    {l : List PlayerGameStats}
    (h : parse_player_stats_table doc a t = some (Except.ok l)) :
    ∀ r ∈ l, r.stats_type = t := by
  unfold parse_player_stats_table at h
  split at h
  · simp at h
  · split at h
    · cases h
    · simp only [Option.some.injEq, Except.ok.injEq] at h
      subst h
      intro r hr
      obtain ⟨row, _, hrow⟩ := List.mem_filterMap.mp hr
      exact (parseTableRow_inv hrow).2.1

theorem schemaFor_append {st : StatsType} {rs : List PlayerGameStats}
    {cols : List String} (more : List PlayerGameStats)
    (h : schemaFor st rs = some cols) :
    schemaFor st (rs ++ more) = some cols := by
  induction rs with
  | nil => simp [schemaFor] at h
  | cons r rest ih =>
    by_cases ht : r.stats_type = st
    · simp only [schemaFor, if_pos ht] at h
      simp only [List.cons_append, schemaFor, if_pos ht]
      exact h
    · simp only [schemaFor, if_neg ht] at h
      simp only [List.cons_append, schemaFor, if_neg ht]
      exact ih h

theorem schemaFor_eq_firstOfType (st : StatsType) (rs : List PlayerGameStats) :
    schemaFor st rs = (firstOfType st rs).map (fun r => r.stats.map Prod.fst) := by
  induction rs with
  | nil => rfl
  | cons r rest ih =>
    by_cases ht : r.stats_type = st
    · simp [schemaFor, firstOfType, ht]
    · simp [schemaFor, firstOfType, ht, ih]

theorem btreeGet_filter_mem {c : String} {cols : List String} (m : List (String × String))
    (hc : c ∈ cols) :
    btreeGet c (m.filter (fun p => decide (p.1 ∈ cols))) = btreeGet c m := by
  induction m with
  | nil => rfl
  | cons p rest ih =>
    obtain ⟨p1, p2⟩ := p
    by_cases h1 : c = p1
    · subst h1
      simp [List.filter_cons, hc, btreeGet]
    · by_cases hmem : p1 ∈ cols
      · simp [List.filter_cons, hmem, btreeGet, h1, ih]
      · simp [List.filter_cons, hmem, btreeGet, h1, ih]

theorem renderVals_filter (cols : List String) (m : List (String × String)) :
    renderVals cols (m.filter (fun p => decide (p.1 ∈ cols))) = renderVals cols m := by
  unfold renderVals
  apply List.map_congr_left
  intro c hc
  rw [btreeGet_filter_mem m hc]

theorem containsSeq_false_head {pat : List Char} {c : Char} {rest : List Char}
    (h : containsSeq pat (c :: rest) = false) :
    leadMatch pat (c :: rest) = false ∧ containsSeq pat rest = false := by
  simp only [containsSeq, Bool.or_eq_false_iff] at h
  exact h

theorem replaceCharsFuel_id {pat rep : List Char} :
    ∀ (fuel : Nat) (l : List Char), containsSeq pat l = false →
      replaceCharsFuel pat rep fuel l = l := by
  intro fuel
  induction fuel with
  | zero =>
    intro l _
    cases l <;> rfl
  | succ n ih =>
    intro l h
    cases l with
    | nil => rfl
    | cons c rest =>
      obtain ⟨h1, h2⟩ := containsSeq_false_head h
      simp only [replaceCharsFuel, h1, Bool.false_eq_true, if_false]
      rw [ih rest h2]

theorem strReplace_id {s pat rep : String} (h : containsSeq pat.data s.data = false) :
    strReplace s pat rep = s := by
  unfold strReplace replaceChars
  rw [replaceCharsFuel_id _ _ h]

theorem processCells_bad_cell : ∀ (cells : List HNode) (acc : List (String × String))
    {tag : String} {attrs : List (String × String)} {kids : List HNode},
    HNode.element tag attrs kids ∈ cells → attrGet attrs "data-stat" = none →
    processCells cells acc = none := by
  intro cells
  induction cells with
  | nil =>
    intro acc _ _ _ hmem _
    simp at hmem
  | cons cell rest ih =>
    intro acc tag attrs kids hmem hstat
    rcases List.mem_cons.mp hmem with heq | hmem2
    · subst heq
      simp [processCells, cellUpdate, hstat]
    · cases cell with
      | element t2 a2 k2 =>
        simp only [processCells]
        cases hc : cellUpdate t2 a2 k2 acc with
        | none => rfl
        | some acc2 => exact ih acc2 hmem2 hstat
      | text s =>
        simp only [processCells]
        exact ih acc hmem2 hstat
      | comment =>
        simp only [processCells]
        exact ih acc hmem2 hstat

/-- C9: for every input text containing neither of the comment-delimiter
marker sequences `"\n<!--"` and `"\n-->"`, the markup-normalization rewrite
`uncommentTables` is the identity on its input (the rewrite is a total
function, so it never produces an error). -/
theorem C9_uncomment_identity (s : String)
    (h1 : containsSeq "\n<!--".data s.data = false)
    (h2 : containsSeq "\n-->".data s.data = false) :
    uncommentTables s = s := by
  unfold uncommentTables
  rw [strReplace_id h1]
  exact strReplace_id h2

/-- Witness for C9 on a concrete marker-free document text. -/
theorem C9_uncomment_identity_witness :
    containsSeq "\n<!--".data "<html><table id=x></table></html>".data = false ∧
    containsSeq "\n-->".data "<html><table id=x></table></html>".data = false ∧
    uncommentTables "<html><table id=x></table></html>" = "<html><table id=x></table></html>" :=
  ⟨by decide, by decide, C9_uncomment_identity _ (by decide) (by decide)⟩

/-- C10: every record a row yields has pairwise-distinct field keys; inserting
the same key twice keeps only the later value (last occurrence wins); and a
cell whose table-supplied field name collides with the fixed identifier key
silently overwrites the identifier value taken from the identifier
attribute. -/
theorem C10_unique_keys_last_wins :
    (∀ (st : StatsType) (row : HNode) (rec : PlayerGameStats),
      parseTableRow st row = some rec → (rec.stats.map Prod.fst).Nodup) ∧
    (∀ (m : List (String × String)) (k v1 v2 : String),
      btreeGet k (btreeInsert k v2 (btreeInsert k v1 m)) = some v2) ∧
    (∀ (s v1 v2 : String) (rest : List HNode) (acc : List (String × String)),
      s ≠ "player" →
      processCells (statCell s v1 :: statCell s v2 :: rest) acc =
        processCells rest
          (btreeInsert (strTrim s) (strTrim v2) (btreeInsert (strTrim s) (strTrim v1) acc))) ∧
    (∀ (id t : String) (acc : List (String × String)),
      cellUpdate "td" [("data-append-csv", id), ("data-stat", "player_id")] [HNode.text t] acc =
        some (btreeInsert "player_id" (strTrim t) (btreeInsert "player_id" id acc))) := by
  refine ⟨?_, ?_, ?_, ?_⟩
  · intro st row rec h
    exact keysSortedB_nodup (parseTableRow_inv h).1
  · intro m k v1 v2
    exact btreeGet_insert_self k v2 (btreeInsert k v1 m)
  · intro s v1 v2 rest acc hs
    simp [processCells, cellUpdate, csvUpdate, statCell, attrGet, statValueNode, hs,
      firstChild, nodeChildren]
  · intro id t acc
    have htrim : strTrim "player_id" = "player_id" := by decide
    simp [cellUpdate, csvUpdate, attrGet, statValueNode, firstChild, nodeChildren, htrim]

/-- Witness for C10 at concrete rows and maps. -/
theorem C10_unique_keys_last_wins_witness :
    (sampleRec.stats.map Prod.fst).Nodup ∧
    btreeGet "yards" (btreeInsert "yards" "2" (btreeInsert "yards" "1" [])) = some "2" ∧
    processCells [statCell "yards" "1", statCell "yards" "2"] [] =
      processCells [] (btreeInsert (strTrim "yards") (strTrim "2")
        (btreeInsert (strTrim "yards") (strTrim "1") [])) ∧
    cellUpdate "td" [("data-append-csv", "AliA00"), ("data-stat", "player_id")]
        [HNode.text "BobB00"] [] =
      some (btreeInsert "player_id" (strTrim "BobB00") (btreeInsert "player_id" "AliA00" [])) :=
  ⟨C10_unique_keys_last_wins.1 StatsType.Offense sampleRow sampleRec (by decide),
   C10_unique_keys_last_wins.2.1 [] "yards" "1" "2",
   C10_unique_keys_last_wins.2.2.1 "yards" "1" "2" [] [] (by decide),
   C10_unique_keys_last_wins.2.2.2 "AliA00" "BobB00" []⟩

/-- C5: value extraction for one structural cell of a data row. The
name-bearing field takes the text two structural levels below the cell, every
other field the text one level below; both the stored key and the stored
value are trimmed of surrounding whitespace. When the node at the designated
level is not a direct text node the cell contributes no field value, and
processing continues with the remaining cells — no record- or document-level
failure. -/
theorem C5_value_extraction (tag : String) (attrs : List (String × String))
    (kids rest : List HNode) (acc : List (String × String)) (stat_name : String)
    (hstat : attrGet attrs "data-stat" = some stat_name) :
    (∀ t, stat_name = "player" →
      (firstChild (HNode.element tag attrs kids)).bind firstChild = some (HNode.text t) →
      processCells (HNode.element tag attrs kids :: rest) acc =
        processCells rest (btreeInsert (strTrim stat_name) (strTrim t) (csvUpdate attrs acc))) ∧
    (∀ t, stat_name ≠ "player" →
      firstChild (HNode.element tag attrs kids) = some (HNode.text t) →
      processCells (HNode.element tag attrs kids :: rest) acc =
        processCells rest (btreeInsert (strTrim stat_name) (strTrim t) (csvUpdate attrs acc))) ∧
    ((∀ t, statValueNode (HNode.element tag attrs kids) stat_name ≠ some (HNode.text t)) →
      processCells (HNode.element tag attrs kids :: rest) acc =
        processCells rest (csvUpdate attrs acc)) := by
  refine ⟨?_, ?_, ?_⟩
  · intro t hp hv
    subst hp
    have hval : statValueNode (HNode.element tag attrs kids) "player" = some (HNode.text t) := by
      simp [statValueNode, hv]
    simp [processCells, cellUpdate, hstat, hval]
  · intro t hp hv
    have hval : statValueNode (HNode.element tag attrs kids) stat_name = some (HNode.text t) := by
      simp [statValueNode, hp, hv]
    simp [processCells, cellUpdate, hstat, hval]
  · intro hnv
    cases hv : statValueNode (HNode.element tag attrs kids) stat_name with
    | none => simp [processCells, cellUpdate, hstat, hv]
    | some n =>
      cases n with
      | text t => exact absurd hv (hnv t)
      | element t2 a2 k2 => simp [processCells, cellUpdate, hstat, hv]
      | comment => simp [processCells, cellUpdate, hstat, hv]

/-- Witness for C5: the name cell reads two levels down and trims; a plain
stat cell reads one level down; a cell whose content is structural yields no
value. -/
theorem C5_value_extraction_witness :
    processCells [nameCell "AliA00" " Alice "] [] =
      processCells [] (btreeInsert (strTrim "player") (strTrim " Alice ")
        (csvUpdate [("data-append-csv", "AliA00"), ("data-stat", "player")] [])) ∧
    processCells [statCell "yards" " 57 "] [] =
      processCells [] (btreeInsert (strTrim "yards") (strTrim " 57 ")
        (csvUpdate [("data-stat", "yards")] [])) ∧
    processCells [HNode.element "td" [("data-stat", "yards")] [HNode.element "b" [] []]] [] =
      processCells [] (csvUpdate [("data-stat", "yards")] []) :=
  ⟨(C5_value_extraction "th" [("data-append-csv", "AliA00"), ("data-stat", "player")]
      [HNode.element "a" [("href", "/players/x.htm")] [HNode.text " Alice "]] [] [] "player"
      (by rfl)).1 " Alice " rfl (by rfl),
   (C5_value_extraction "td" [("data-stat", "yards")] [HNode.text " 57 "] [] [] "yards"
      (by rfl)).2.1 " 57 " (by decide) (by rfl),
   (C5_value_extraction "td" [("data-stat", "yards")] [HNode.element "b" [] []] [] [] "yards"
      (by rfl)).2.2 (fun t h => by cases h)⟩

/-- C6: a row of a table body yields a record exactly when, after all its
cells are processed, both the identifier field and the name field are
present in the accumulated map; a row missing either yields nothing — it is
dropped without any error outcome. -/
theorem C6_row_acceptance (st : StatsType) (row : HNode) :
    (∃ rec, parseTableRow st row = some rec) ↔
      (∃ pd, processCells (nodeChildren row) [] = some pd ∧
        (btreeGet "player_id" pd).isSome ∧ (btreeGet "player" pd).isSome) := by
  constructor
  · rintro ⟨rec, h⟩
    obtain ⟨-, -, hid, hname, hp⟩ := parseTableRow_inv h
    exact ⟨rec.stats, hp, by simp [hid], by simp [hname]⟩
  · rintro ⟨pd, hp, hid, hname⟩
    rw [Option.isSome_iff_exists] at hid hname
    obtain ⟨pid, hid⟩ := hid
    obtain ⟨pname, hname⟩ := hname
    refine ⟨⟨pid, pname, st, pd⟩, ?_⟩
    simp only [parseTableRow, hp, hid, hname]

/-- C7: a structural cell lacking the field-name attribute stops the whole
row — the row yields no record — so such rows (headers and separators) never
contribute to the extracted record list. -/
theorem C7_header_rows_filtered (st : StatsType) (row : HNode)
    (tag : String) (attrs : List (String × String)) (kids : List HNode)
    (hmem : HNode.element tag attrs kids ∈ nodeChildren row)
    (hstat : attrGet attrs "data-stat" = none) :
    parseTableRow st row = none ∧
    ∀ pre post : List HNode,
      (pre ++ row :: post).filterMap (parseTableRow st) =
        (pre ++ post).filterMap (parseTableRow st) := by
  have hrow : parseTableRow st row = none := by
    unfold parseTableRow
    rw [processCells_bad_cell _ _ hmem hstat]
  refine ⟨hrow, fun pre post => ?_⟩
  rw [List.filterMap_append, List.filterMap_append, List.filterMap_cons_none hrow]

/-- Witness for C7 on a concrete separator row. -/
theorem C7_header_rows_filtered_witness :
    parseTableRow StatsType.Offense separatorRow = none ∧
    ([sampleRow, separatorRow].filterMap (parseTableRow StatsType.Offense) =
      [sampleRow].filterMap (parseTableRow StatsType.Offense)) := by
  have h := C7_header_rows_filtered StatsType.Offense separatorRow "th" [] [HNode.text "Player"]
    (by simp [separatorRow, nodeChildren]) (by rfl)
  exact ⟨h.1, h.2 [sampleRow] []⟩

/-- C1 as stated fails on the code: for the concrete first accepted record of
`sampleRow`, the schema the code derives is the full key list of the record's
`BTreeMap` — identifier and name fields included, in sorted key order — while
the claim prescribes the field-discovery order with those two fields
excluded. The two differ. -/
theorem C1_schema_counterexample :
    parseTableRow StatsType.Offense sampleRow = some sampleRec ∧
    schemaFor StatsType.Offense [sampleRec] =
      some ["attempts", "player", "player_id", "yards"] ∧
    specRecordOfRow sampleRow =
      some [("player_id", "AliA00"), ("player", "Alice"), ("yards", "57"), ("attempts", "3")] ∧
    specSchemaOfRecord
      [("player_id", "AliA00"), ("player", "Alice"), ("yards", "57"), ("attempts", "3")] =
      ["yards", "attempts"] ∧
    (["attempts", "player", "player_id", "yards"] : List String) ≠ ["yards", "attempts"] := by
  decide

/-- C1 amended: the schema used for a category's output is built from the
first accepted record of the category by taking that record's full field-name
set — the identifier and name fields included — in increasing lexicographic
order of field name (the iteration order of the record's `BTreeMap`), not in
field-discovery order. -/
theorem C1_schema_from_first_record (st : StatsType) (rs : List PlayerGameStats)
    (r : PlayerGameStats) (hfirst : firstOfType st rs = some r) :
    schemaFor st rs = some (r.stats.map Prod.fst) ∧
    ∀ (row : HNode), parseTableRow st row = some r →
      keysSortedB r.stats = true ∧
      "player_id" ∈ r.stats.map Prod.fst ∧ "player" ∈ r.stats.map Prod.fst := by
  constructor
  · rw [schemaFor_eq_firstOfType, hfirst]
    rfl
  · intro row hrow
    obtain ⟨hsort, -, hid, hname, -⟩ := parseTableRow_inv hrow
    exact ⟨hsort, btreeGet_mem hid, btreeGet_mem hname⟩

/-- Witness for the amended C1 at the concrete sample row. -/
theorem C1_schema_from_first_record_witness :
    schemaFor StatsType.Offense [sampleRec] = some (sampleRec.stats.map Prod.fst) ∧
    keysSortedB sampleRec.stats = true ∧
    "player_id" ∈ sampleRec.stats.map Prod.fst ∧ "player" ∈ sampleRec.stats.map Prod.fst := by
  have h := C1_schema_from_first_record StatsType.Offense [sampleRec] sampleRec (by decide)
  have h2 := h.2 sampleRow (by decide)
  exact ⟨h.1, h2.1, h2.2.1, h2.2.2⟩

/-- C2: the schema of a category is frozen once populated from the first
record — appending any later records leaves it unchanged — and a record's
fields outside the frozen schema never reach an output row: the rendered row
equals the row rendered from the record restricted to schema fields. -/
theorem C2_schema_frozen (st : StatsType) (rs more : List PlayerGameStats)
    (cols : List String) (h : schemaFor st rs = some cols) :
    schemaFor st (rs ++ more) = some cols ∧
    ∀ (gi : GameInfo) (stats : List (String × String)),
      renderRow gi cols stats =
        renderRow gi cols (stats.filter (fun p => decide (p.1 ∈ cols))) := by
  refine ⟨schemaFor_append more h, fun gi stats => ?_⟩
  unfold renderRow
  rw [renderVals_filter]

/-- Witness for C2: the schema of the x/y record survives appending a record
with the extra field z, and the extra field does not change the z-record's
rendered row. -/
theorem C2_schema_frozen_witness :
    schemaFor StatsType.Offense ([recX1] ++ [recX2]) = some ["x", "y"] ∧
    renderRow giXY ["x", "y"] recX2.stats =
      renderRow giXY ["x", "y"] (recX2.stats.filter (fun p => decide (p.1 ∈ ["x", "y"]))) := by
  have h := C2_schema_frozen StatsType.Offense [recX1] [recX2] ["x", "y"] (by decide)
  exact ⟨h.1, h.2 giXY recX2.stats⟩

/-- C4: for every category holding records, the written output is the header
row — the three coordinate-column names followed by the schema — once,
before all data rows; and every data row is exactly the three coordinates
followed by one value per schema field in schema order, the record's value or
the empty string when absent. Record fields outside the schema are omitted:
the rendered row equals the one computed from the record restricted to the
schema. -/
theorem C4_output_shape (st : StatsType) (gis : List GameInfo) (cols : List String)
    (h : schemaFor st (allTypedStats gis) = some cols) :
    categoryOutput st gis =
      some ((["year", "week", "game_id"] ++ cols) ::
        (gis.map (fun gi =>
          gi.stats.player_stats.filterMap (fun ps =>
            if ps.stats_type = st then
              some (toString gi.year :: toString gi.week_num :: gi.stats.game_id ::
                cols.map (fun c => (btreeGet c ps.stats).getD ""))
            else none))).flatten) ∧
    ∀ (gi : GameInfo) (stats : List (String × String)),
      renderRow gi cols stats =
        toString gi.year :: toString gi.week_num :: gi.stats.game_id ::
          (cols.map (fun c =>
            (btreeGet c (stats.filter (fun p => decide (p.1 ∈ cols)))).getD "")) := by
  constructor
  · simp only [categoryOutput, h]
    rfl
  · intro gi stats
    have hf := renderVals_filter cols stats
    unfold renderRow
    rw [← hf]
    rfl

/-- Witness for C4: a one-document batch with the schema-defining x/y record
and a later x/z record renders the header once and the two schema-aligned
rows, with z omitted and the missing y filled with the empty value. -/
theorem C4_output_shape_witness :
    categoryOutput StatsType.Offense [giXY] =
      some [["year", "week", "game_id", "x", "y"],
            ["2021", "1", "g1", "1", "2"],
            ["2021", "1", "g1", "3", ""]] := by
  have h := (C4_output_shape StatsType.Offense [giXY] ["x", "y"] (by decide)).1
  rw [h]
  decide

/-- C8 as stated fails on the code: the claim says the table-locate operation
never panics, but when the anchor matches an element that has no table body
the lookup reaches the `unwrap` of main.rs line 122 — the panic outcome,
modelled by `none`. -/
theorem C8_locate_counterexample :
    locateAnchor noTbodyDoc "player_offense" =
      some (HNode.element "table" [("id", "player_offense")] []) ∧
    locateTbody (HNode.element "table" [("id", "player_offense")] []) = none ∧
    parse_player_stats_table noTbodyDoc "player_offense" StatsType.Offense = none :=
  ⟨rfl, rfl, rfl⟩

/-- C8 amended: when no element matches the anchor, the locate operation
returns the distinguishable section-missing error; when the anchored element
has a table body none of whose rows is a data row, it returns success with
zero records — an outcome distinct from section-missing; but when the anchor
matches an element with no table body, the operation panics instead of
returning. -/
theorem C8_locate_outcomes (doc : HNode) (a : String) (st : StatsType) :
    (locateAnchor doc a = none →
      parse_player_stats_table doc a st =
        some (Except.error ("no table element for selector #" ++ a ++ " found"))) ∧
    (∀ tbl tb, locateAnchor doc a = some tbl → locateTbody tbl = some tb →
      (∀ row ∈ nodeChildren tb, parseTableRow st row = none) →
      parse_player_stats_table doc a st = some (Except.ok ([] : List PlayerGameStats))) ∧
    (∀ e, (Except.ok ([] : List PlayerGameStats) : Except String (List PlayerGameStats)) ≠
      Except.error e) ∧
    (∀ tbl, locateAnchor doc a = some tbl → locateTbody tbl = none →
      parse_player_stats_table doc a st = none) := by
  refine ⟨?_, ?_, ?_, ?_⟩
  · intro h
    simp [parse_player_stats_table, h]
  · intro tbl tb h1 h2 hrows
    have hfm : (nodeChildren tb).filterMap (parseTableRow st) = [] :=
      List.filterMap_eq_nil_iff.mpr hrows
    simp [parse_player_stats_table, h1, h2, hfm]
  · intro e h
    exact Except.noConfusion h
  · intro tbl h1 h2
    simp [parse_player_stats_table, h1, h2]

/-- Witness for the amended C8 on concrete documents: missing anchor, table
present with an empty body, and anchored element without a body. -/
theorem C8_locate_outcomes_witness :
    parse_player_stats_table noOffenseDoc "player_offense" StatsType.Offense =
      some (Except.error ("no table element for selector #" ++ "player_offense" ++ " found")) ∧
    parse_player_stats_table fullDoc "kicking" StatsType.Kicking =
      some (Except.ok ([] : List PlayerGameStats)) ∧
    parse_player_stats_table noTbodyDoc "player_offense" StatsType.Offense = none := by
  refine ⟨?_, ?_, ?_⟩
  · exact (C8_locate_outcomes noOffenseDoc "player_offense" StatsType.Offense).1 (by rfl)
  · exact (C8_locate_outcomes fullDoc "kicking" StatsType.Kicking).2.1
      (mkTable "kicking" []) (HNode.element "tbody" [] []) (by rfl) (by rfl)
      (by simp [nodeChildren])
  · exact (C8_locate_outcomes noTbodyDoc "player_offense" StatsType.Offense).2.2.2
      (HNode.element "table" [("id", "player_offense")] []) (by rfl) (by rfl)

theorem okOrEmpty_types {doc : HNode} {a : String} {t : StatsType}
    {r : Except String (List PlayerGameStats)}
    (h : parse_player_stats_table doc a t = some r) :
    ∀ x ∈ okOrEmpty r, x.stats_type = t := by
  cases r with
  | error e =>
    intro x hx
    simp [okOrEmpty] at hx
  | ok l =>
    intro x hx
    simp only [okOrEmpty] at hx
    exact parse_table_types h x hx

theorem parse_table_of_missing {doc : HNode} {a : String} (st : StatsType)
    (hloc : locateAnchor doc a = none) :
    parse_player_stats_table doc a st =
      some (Except.error ("no table element for selector #" ++ a ++ " found")) := by
  simp [parse_player_stats_table, hloc]

theorem parse_game_log_ok_anchors {doc : HNode} {gid : String} {gs : GameStats}
    (h : parse_game_log doc gid = some (Except.ok gs)) :
    ∀ a ∈ (["player_offense", "player_defense", "returns", "kicking"] : List String),
      locateAnchor doc a ≠ none := by
  intro a ha hloc
  have herr := fun st => @parse_table_of_missing doc a st hloc
  unfold parse_game_log at h
  split at h
  · cases h
  · simp at h
  · split at h
    · cases h
    · simp at h
    · split at h
      · cases h
      · simp at h
      · split at h
        · cases h
        · simp at h
        · split at h
          · cases h
          · split at h
            · cases h
            · split at h
              · cases h
              · split at h
                · cases h
                · fin_cases ha <;> simp_all

theorem parseGames_none {gid : String} {doc : HNode}
    (hbad : ∀ gs, parse_game_log doc gid ≠ some (Except.ok gs)) :
    ∀ games : List (String × HNode), (gid, doc) ∈ games → parseGames games = none := by
  intro games
  induction games with
  | nil =>
    intro h
    simp at h
  | cons g rest ih =>
    intro hmem
    rcases List.mem_cons.mp hmem with heq | hmem2
    · subst heq
      cases hp : parse_game_log doc gid with
      | none => simp [parseGames, hp]
      | some r =>
        cases r with
        | error e => simp [parseGames, hp]
        | ok gs => exact absurd hp (hbad gs)
    · obtain ⟨g1, g2⟩ := g
      cases hp : parse_game_log g2 g1 with
      | none => simp [parseGames, hp]
      | some r =>
        cases r with
        | error e => simp [parseGames, hp]
        | ok gs => simp [parseGames, hp, ih hmem2]

theorem append8_no_type {t : StatsType} {p1 p2 p3 p4 p5 p6 p7 p8 : List PlayerGameStats}
    (h1 : ∀ x ∈ p1, x.stats_type ≠ t) (h2 : ∀ x ∈ p2, x.stats_type ≠ t)
    (h3 : ∀ x ∈ p3, x.stats_type ≠ t) (h4 : ∀ x ∈ p4, x.stats_type ≠ t)
    (h5 : ∀ x ∈ p5, x.stats_type ≠ t) (h6 : ∀ x ∈ p6, x.stats_type ≠ t)
    (h7 : ∀ x ∈ p7, x.stats_type ≠ t) (h8 : ∀ x ∈ p8, x.stats_type ≠ t) :
    ∀ x ∈ p1 ++ p2 ++ p3 ++ p4 ++ p5 ++ p6 ++ p7 ++ p8, x.stats_type ≠ t := by
  intro x hx
  simp only [List.mem_append] at hx
  rcases hx with (((((((hx | hx) | hx) | hx) | hx) | hx) | hx) | hx)
  exacts [h1 x hx, h2 x hx, h3 x hx, h4 x hx, h5 x hx, h6 x hx, h7 x hx, h8 x hx]

/-- C3: a document missing any mandatory section (offense, defense, returns,
kicking) fails extraction — whenever `parse_game_log` returns at all, it
returns an error — and a document whose extraction does not succeed
contributes no output rows to any category of its batch (all-or-nothing).
When only optional advanced sections are absent, extraction succeeds: the
absent categories yield zero records, and every category's records are
exactly the ones its own table parse produced, so the other categories are
unaffected. -/
theorem C3_mandatory_optional (doc : HNode) (gid : String) :
    (∀ a ∈ (["player_offense", "player_defense", "returns", "kicking"] : List String),
      locateAnchor doc a = none →
      ∀ res, parse_game_log doc gid = some res → ∃ e, res = Except.error e) ∧
    (∀ (year week : Nat) (games : List (String × HNode)) (st : StatsType),
      (gid, doc) ∈ games →
      (∀ gs, parse_game_log doc gid ≠ some (Except.ok gs)) →
      processWeekCategory year week games st = none) ∧
    (∀ l1 l2 l3 l4 r1 r2 r3 r4,
      parse_player_stats_table doc "player_offense" StatsType.Offense = some (Except.ok l1) →
      parse_player_stats_table doc "player_defense" StatsType.Defense = some (Except.ok l2) →
      parse_player_stats_table doc "returns" StatsType.Returns = some (Except.ok l3) →
      parse_player_stats_table doc "kicking" StatsType.Kicking = some (Except.ok l4) →
      parse_player_stats_table doc "passing_advanced" StatsType.AdvPassing = some r1 →
      parse_player_stats_table doc "rushing_advanced" StatsType.AdvRushing = some r2 →
      parse_player_stats_table doc "receiving_advanced" StatsType.AdvReceiving = some r3 →
      parse_player_stats_table doc "defense_advanced" StatsType.AdvDefense = some r4 →
      parse_game_log doc gid = some (Except.ok
        { game_id := gid
          player_stats := l1 ++ l2 ++ l3 ++ l4 ++ okOrEmpty r1 ++ okOrEmpty r2 ++
            okOrEmpty r3 ++ okOrEmpty r4 }) ∧
      (∀ (t : StatsType) (rt : Except String (List PlayerGameStats)),
        ((t = StatsType.AdvPassing ∧ rt = r1) ∨ (t = StatsType.AdvRushing ∧ rt = r2) ∨
         (t = StatsType.AdvReceiving ∧ rt = r3) ∨ (t = StatsType.AdvDefense ∧ rt = r4)) →
        ∀ e, rt = Except.error e →
          ∀ x ∈ l1 ++ l2 ++ l3 ++ l4 ++ okOrEmpty r1 ++ okOrEmpty r2 ++
              okOrEmpty r3 ++ okOrEmpty r4, x.stats_type ≠ t)) := by
  refine ⟨?_, ?_, ?_⟩
  · intro a ha hloc res hres
    cases res with
    | error e => exact ⟨e, rfl⟩
    | ok gs => exact absurd hloc (parse_game_log_ok_anchors hres a ha)
  · intro year week games st hmem hbad
    simp [processWeekCategory, parseGames_none hbad games hmem]
  · intro l1 l2 l3 l4 r1 r2 r3 r4 h1 h2 h3 h4 g1 g2 g3 g4
    have hlog : parse_game_log doc gid = some (Except.ok
        { game_id := gid
          player_stats := l1 ++ l2 ++ l3 ++ l4 ++ okOrEmpty r1 ++ okOrEmpty r2 ++
            okOrEmpty r3 ++ okOrEmpty r4 }) := by
      simp [parse_game_log, h1, h2, h3, h4, g1, g2, g3, g4]
    refine ⟨hlog, ?_⟩
    have t1 := parse_table_types h1
    have t2 := parse_table_types h2
    have t3 := parse_table_types h3
    have t4 := parse_table_types h4
    have t5 := okOrEmpty_types g1
    have t6 := okOrEmpty_types g2
    have t7 := okOrEmpty_types g3
    have t8 := okOrEmpty_types g4
    intro t rt hsel e hrt
    rcases hsel with ⟨ht, hr⟩ | ⟨ht, hr⟩ | ⟨ht, hr⟩ | ⟨ht, hr⟩
    · subst ht
      rw [hr] at hrt
      subst hrt
      exact append8_no_type
        (fun x hx => by rw [t1 x hx]; decide) (fun x hx => by rw [t2 x hx]; decide)
        (fun x hx => by rw [t3 x hx]; decide) (fun x hx => by rw [t4 x hx]; decide)
        (fun x hx => by simp [okOrEmpty] at hx)
        (fun x hx => by rw [t6 x hx]; decide) (fun x hx => by rw [t7 x hx]; decide)
        (fun x hx => by rw [t8 x hx]; decide)
    · subst ht
      rw [hr] at hrt
      subst hrt
      exact append8_no_type
        (fun x hx => by rw [t1 x hx]; decide) (fun x hx => by rw [t2 x hx]; decide)
        (fun x hx => by rw [t3 x hx]; decide) (fun x hx => by rw [t4 x hx]; decide)
        (fun x hx => by rw [t5 x hx]; decide)
        (fun x hx => by simp [okOrEmpty] at hx)
        (fun x hx => by rw [t7 x hx]; decide) (fun x hx => by rw [t8 x hx]; decide)
    · subst ht
      rw [hr] at hrt
      subst hrt
      exact append8_no_type
        (fun x hx => by rw [t1 x hx]; decide) (fun x hx => by rw [t2 x hx]; decide)
        (fun x hx => by rw [t3 x hx]; decide) (fun x hx => by rw [t4 x hx]; decide)
        (fun x hx => by rw [t5 x hx]; decide) (fun x hx => by rw [t6 x hx]; decide)
        (fun x hx => by simp [okOrEmpty] at hx)
        (fun x hx => by rw [t8 x hx]; decide)
    · subst ht
      rw [hr] at hrt
      subst hrt
      exact append8_no_type
        (fun x hx => by rw [t1 x hx]; decide) (fun x hx => by rw [t2 x hx]; decide)
        (fun x hx => by rw [t3 x hx]; decide) (fun x hx => by rw [t4 x hx]; decide)
        (fun x hx => by rw [t5 x hx]; decide) (fun x hx => by rw [t6 x hx]; decide)
        (fun x hx => by rw [t7 x hx]; decide)
        (fun x hx => by simp [okOrEmpty] at hx)

/-- Witness for C3: a document missing the offense section fails (and the
batch containing it produces no rows for any category), while the document
with all mandatory sections and no advanced sections extracts successfully
with zero advanced records. -/
theorem C3_mandatory_optional_witness :
    (∃ e, (Except.error ("no table element for selector #" ++ "player_offense" ++ " found") :
        Except String GameStats) = Except.error e) ∧
    processWeekCategory 2021 1 [("g0", noOffenseDoc)] StatsType.Offense = none ∧
    parse_game_log fullDoc "g1" = some (Except.ok
      { game_id := "g1"
        player_stats := [sampleRec] ++ [] ++ [] ++ [] ++
          okOrEmpty (Except.error
            ("no table element for selector #" ++ "passing_advanced" ++ " found")) ++
          okOrEmpty (Except.error
            ("no table element for selector #" ++ "rushing_advanced" ++ " found")) ++
          okOrEmpty (Except.error
            ("no table element for selector #" ++ "receiving_advanced" ++ " found")) ++
          okOrEmpty (Except.error
            ("no table element for selector #" ++ "defense_advanced" ++ " found")) }) ∧
    (∀ x ∈ ([sampleRec] ++ [] ++ [] ++ [] ++
          okOrEmpty (Except.error
            ("no table element for selector #" ++ "passing_advanced" ++ " found")) ++
          okOrEmpty (Except.error
            ("no table element for selector #" ++ "rushing_advanced" ++ " found")) ++
          okOrEmpty (Except.error
            ("no table element for selector #" ++ "receiving_advanced" ++ " found")) ++
          okOrEmpty (Except.error
            ("no table element for selector #" ++ "defense_advanced" ++ " found")) :
          List PlayerGameStats),
      x.stats_type ≠ StatsType.AdvPassing) := by
  have hpart3 := (C3_mandatory_optional fullDoc "g1").2.2 [sampleRec] [] [] []
    (Except.error ("no table element for selector #" ++ "passing_advanced" ++ " found"))
    (Except.error ("no table element for selector #" ++ "rushing_advanced" ++ " found"))
    (Except.error ("no table element for selector #" ++ "receiving_advanced" ++ " found"))
    (Except.error ("no table element for selector #" ++ "defense_advanced" ++ " found"))
    rfl rfl rfl rfl rfl rfl rfl rfl
  refine ⟨?_, ?_, hpart3.1, ?_⟩
  · exact (C3_mandatory_optional noOffenseDoc "g0").1 "player_offense" (by simp) rfl
      (Except.error ("no table element for selector #" ++ "player_offense" ++ " found")) rfl
  · exact (C3_mandatory_optional noOffenseDoc "g0").2.1 2021 1 [("g0", noOffenseDoc)]
      StatsType.Offense (by simp)
      (fun gs h => by
        rw [show parse_game_log noOffenseDoc "g0" = some (Except.error
          ("no table element for selector #" ++ "player_offense" ++ " found")) from rfl] at h
        simp at h)
  · exact hpart3.2 StatsType.AdvPassing
      (Except.error ("no table element for selector #" ++ "passing_advanced" ++ " found"))
      (Or.inl ⟨rfl, rfl⟩) _ rfl
